import Mathlib

/-
Shallow embedding of the TimelineProject repository (Python) in Lean 4.

Conventions of the embedding:
* Python strings are modelled as `List Char`.
* Python floats are carried as rationals `ℚ`.  Where float rounding is
  irrelevant (values that are exactly representable, or comparisons at
  exact values) the arithmetic is the exact rational one; for the timecode
  codec round-trip, where rounding decides the outcome, a faithful IEEE
  binary64 model (`roundDouble` and the `f*` operations below) is used
  alongside the exact idealization.
* Python ints are modelled as `Int` or `Nat`.
* Code that can raise returns `Option` or `Except`; the error value carries
  the kind of Python exception where that matters.
* Python dicts are modelled as association lists with insert-or-overwrite
  update; only lookup, insertion and deletion are used by the source.
-/

set_option autoImplicit false

attribute [local semireducible] Rat.add Rat.mul Rat.inv Rat.sub

/-- Decidable equality for `Except`, used to evaluate the models on
concrete inputs. -/
instance {e a : Type} [DecidableEq e] [DecidableEq a] : DecidableEq (Except e a)
  | .ok x, .ok y =>
    if h : x = y then .isTrue (by rw [h])
    else .isFalse (by intro hh; cases hh; exact h rfl)
  | .ok _, .error _ => .isFalse (by intro h; cases h)
  | .error _, .ok _ => .isFalse (by intro h; cases h)
  | .error x, .error y =>
    if h : x = y then .isTrue (by rw [h])
    else .isFalse (by intro hh; cases hh; exact h rfl)

/-- Kinds of Python exceptions that the modelled code can raise. -/
inductive PyErr where
  | valueError
  | keyError
  | indexError
  | attributeError
  deriving DecidableEq

/-- Model of Python `str.split(sep)` for a one-character separator
(used by the source as `timecode.split(':')` and `address.split('/')`). -/
def splitOnC (sep : Char) : List Char → List (List Char)
  | [] => [[]]
  | c :: cs =>
    if c = sep then [] :: splitOnC sep cs
    else
      match splitOnC sep cs with
      | [] => [[c]]
      | g :: gs => (c :: g) :: gs

/-- Accumulate the decimal value of a digit string (helper for `parseNatQ`). -/
def parseNatDigits (cs : List Char) : Nat :=
  cs.foldl (fun a c => a * 10 + (c.toNat - 48)) 0

/-- Model of Python `int(s)` restricted to the nonnegative decimal strings the
modelled code feeds it: succeeds exactly on nonempty all-digit strings. -/
def parseNatQ (cs : List Char) : Option Nat :=
  if cs ≠ [] ∧ cs.all Char.isDigit = true then some (parseNatDigits cs) else none

/-- Model of Python `int(s)` as an `Except` raising `ValueError`, as used by
the cue synchronization code. -/
def pyInt (cs : List Char) : Except PyErr Int :=
  match parseNatQ cs with
  | some n => .ok (n : Int)
  | none => .error .valueError

/-- Model of the Python format spec `f"{n:02}"` for a nonnegative value:
zero-pad to two digits (wider values print all their digits). -/
def f2 (n : Nat) : List Char :=
  if n < 100 then [Nat.digitChar (n / 10), Nat.digitChar (n % 10)]
  else Nat.toDigits 10 n

/-- Model of `f"{i:02}"` on an `int` that may be negative. -/
def fmtInt (i : Int) : List Char :=
  if i < 0 then '-' :: Nat.toDigits 10 i.natAbs else f2 i.toNat

/-- Model of Python `int(x)` on a float: truncation toward zero. -/
def pyTrunc (q : ℚ) : Int := if 0 ≤ q then ⌊q⌋ else ⌈q⌉

/-- Model of Python `a % b` on floats for the positive divisors used by the
source: `a - b * (a // b)` with `//` the floor division. -/
def pyMod (a b : ℚ) : ℚ := a - b * (⌊a / b⌋ : ℤ)

/-- Exact-arithmetic idealization of `utils.timecode_to_float`:
`hh, mm, ss, ff = map(int, timecode.split(':'))` followed by
`hh * 3600 + mm * 60 + ss + ff / fps`, with the float division and addition
computed as exact rationals instead of IEEE doubles.  A string that does not
split into exactly four integer fields raises (modelled as `none`).  The
IEEE-faithful variant is `timecode_to_float_fp` below; the two differ only
by the rounding of `ff / fps` and of the final addition. -/
def timecode_to_float (t : List Char) (fps : ℚ) : Option ℚ :=
  match splitOnC ':' t with
  | [a, b, c, d] =>
    match parseNatQ a, parseNatQ b, parseNatQ c, parseNatQ d with
    | some hh, some mm, some ss, some ff =>
        some ((hh : ℚ) * 3600 + (mm : ℚ) * 60 + (ss : ℚ) + (ff : ℚ) / fps)
    | _, _, _, _ => none
  | _ => none

/-- Exact-arithmetic idealization of `utils.float_to_timecode`:
`hh = int(seconds // 3600); seconds %= 3600; mm = int(seconds // 60);
seconds %= 60; ss = int(seconds); ff = int((seconds - ss) * fps)` and the
format string `f"{hh:02}:{mm:02}:{ss:02}:{ff:02}"`, with the subtraction and
multiplication in the frame computation exact instead of IEEE-rounded.  The
IEEE-faithful variant is `float_to_timecode_fp` below (the floor divisions
and the `%` steps are exact even on doubles, so only the last line differs). -/
def float_to_timecode (seconds : ℚ) (fps : ℚ) : List Char :=
  let hh : Int := ⌊seconds / 3600⌋
  let s1 : ℚ := pyMod seconds 3600
  let mm : Int := ⌊s1 / 60⌋
  let s2 : ℚ := pyMod s1 60
  let ss : Int := pyTrunc s2
  let ff : Int := pyTrunc ((s2 - (ss : ℚ)) * fps)
  fmtInt hh ++ (':' :: (fmtInt mm ++ (':' :: (fmtInt ss ++ (':' :: fmtInt ff)))))

/-- The rendered form of a four-field timecode, as produced by the format
string of the encoder; an 11-character `HH:MM:SS:FF` string when all four
fields are below 100. -/
def renderTC (hh mm ss ff : Nat) : List Char :=
  f2 hh ++ (':' :: (f2 mm ++ (':' :: (f2 ss ++ (':' :: f2 ff)))))

/-
IEEE-double model of the codec.

The source computes with Python floats (IEEE binary64).  A finite double is
a rational of the form `m * 2 ^ e` with `|m| < 2 ^ 53`, and each arithmetic
operation rounds the exact result to the nearest such value, ties to even.
`roundDouble` below implements that rounding on rationals (for results in
the normal range, which covers every value the codec produces on valid
timecodes); `fadd`, `fsub`, `fmul`, `fdiv` are the rounded operations.
Float `%` with these operands is exact (the true remainder of two doubles
with positive divisor is representable), and `int(a // b)` yields the exact
floor here (it is a small integer), so those steps coincide with the
rational model.
-/

/-- Number of binary digits of a natural number (fuel-based so that kernel
reduction works; 128 bits covers every value that arises here). -/
def bitLenAux : Nat → Nat → Nat
  | 0, _ => 0
  | fuel + 1, n => if n = 0 then 0 else bitLenAux fuel (n / 2) + 1

def bitLen (n : Nat) : Nat := bitLenAux 128 n

/-- Multiply a rational by `2 ^ e` for a possibly negative exponent. -/
def qshift (q : ℚ) (e : Int) : ℚ :=
  if 0 ≤ e then q * (2 : ℚ) ^ e.toNat else q / (2 : ℚ) ^ (-e).toNat

/-- Round a nonnegative rational scaled into `[2^52, 2^53)` to an integer
mantissa: nearest, ties to even. -/
def roundMantissa (r : ℚ) : Int :=
  let m := ⌊r⌋
  if r - (m : ℚ) < 1 / 2 then m
  else if (1 : ℚ) / 2 < r - (m : ℚ) then m + 1
  else if m % 2 = 0 then m else m + 1

/-- Adjust the exponent estimate until `q / 2 ^ e` lies in `[2^52, 2^53)`. -/
def findExp (q : ℚ) : Nat → Int → Int
  | 0, e => e
  | fuel + 1, e =>
    if qshift q (-e) < (2 : ℚ) ^ 52 then findExp q fuel (e - 1)
    else if (2 : ℚ) ^ 53 ≤ qshift q (-e) then findExp q fuel (e + 1)
    else e

/-- Round a positive rational to the nearest binary64 value (nearest, ties
to even), assuming the result is in the normal range. -/
def roundDoublePos (q : ℚ) : ℚ :=
  let e := findExp q 8 ((bitLen q.num.natAbs : Int) - (bitLen q.den : Int) - 52)
  qshift ((roundMantissa (qshift q (-e)) : ℤ) : ℚ) e

/-- Round a rational to the nearest binary64 value. -/
def roundDouble (q : ℚ) : ℚ :=
  if q = 0 then 0 else if 0 < q then roundDoublePos q else -roundDoublePos (-q)

/-- IEEE-double addition. -/
def fadd (a b : ℚ) : ℚ := roundDouble (a + b)

/-- IEEE-double subtraction. -/
def fsub (a b : ℚ) : ℚ := roundDouble (a - b)

/-- IEEE-double multiplication. -/
def fmul (a b : ℚ) : ℚ := roundDouble (a * b)

/-- IEEE-double division. -/
def fdiv (a b : ℚ) : ℚ := roundDouble (a / b)

/-- IEEE-faithful model of `utils.timecode_to_float`: the fields are Python
ints (exact), `ff / fps` is float division, and adding it to the exact
integer second count is float addition (the int converts to a double
exactly below `2 ^ 53`). -/
def timecode_to_float_fp (t : List Char) (fps : ℚ) : Option ℚ :=
  match splitOnC ':' t with
  | [a, b, c, d] =>
    match parseNatQ a, parseNatQ b, parseNatQ c, parseNatQ d with
    | some hh, some mm, some ss, some ff =>
        some (fadd ((hh : ℚ) * 3600 + (mm : ℚ) * 60 + (ss : ℚ))
          (fdiv (ff : ℚ) fps))
    | _, _, _, _ => none
  | _ => none

/-- IEEE-faithful model of `utils.float_to_timecode`: the floor divisions
and `%` reductions are exact on doubles (see above), while the frame
computation `int((seconds - ss) * fps)` rounds the subtraction and the
multiplication before truncating. -/
def float_to_timecode_fp (seconds : ℚ) (fps : ℚ) : List Char :=
  let hh : Int := ⌊seconds / 3600⌋
  let s1 : ℚ := pyMod seconds 3600
  let mm : Int := ⌊s1 / 60⌋
  let s2 : ℚ := pyMod s1 60
  let ss : Int := pyTrunc s2
  let ff : Int := pyTrunc (fmul (fsub s2 ((ss : ℤ) : ℚ)) fps)
  fmtInt hh ++ (':' :: (fmtInt mm ++ (':' :: (fmtInt ss ++ (':' :: fmtInt ff)))))

/-
config/settings.py and the import structure of utils.py.

`utils.py` does `from config.settings import TIMECODE_FPS` at module load
time and uses `TIMECODE_FPS` as the default value of the `fps` parameter of
both codec functions.  Python evaluates a default parameter expression once,
when the `def` statement runs, so the default is the value bound at module
load.  `change_fps` reassigns the module-level global afterwards.
-/

/-- The mutable module state of `config.settings`. -/
structure SettingsState where
  TIMECODE_FPS : Nat
  deriving DecidableEq

/-- The state of `config.settings` right after module load: `TIMECODE_FPS = 30`. -/
def initSettings : SettingsState := ⟨30⟩

/-- Model of `config.settings.change_fps`: reassigns the module global. -/
def change_fps (st : SettingsState) (new_fps : Nat) : SettingsState :=
  let _ := st
  ⟨new_fps⟩

/-- The frame rate captured by `utils.py` at definition time: the value of
`TIMECODE_FPS` at module load, used as the default of the `fps` parameters. -/
def utilsDefaultFps : Nat := initSettings.TIMECODE_FPS

/-- A call `timecode_to_float(t)` that omits the `fps` argument, in a program
whose current `config.settings` module state is `_st`.  The default parameter
value was captured at definition time, so the state is not consulted. -/
def timecode_to_float_nofps (_st : SettingsState) (t : List Char) : Option ℚ :=
  timecode_to_float t (utilsDefaultFps : ℚ)

/-- A call `float_to_timecode(seconds)` that omits the `fps` argument. -/
def float_to_timecode_nofps (_st : SettingsState) (seconds : ℚ) : List Char :=
  float_to_timecode seconds (utilsDefaultFps : ℚ)

/-
cue.py: the Cue dataclass and its __post_init__.
-/

/-- The possible values of the `timecode` argument of the `Cue` constructor:
omitted (the dataclass default `0.0`), `None`, a float, or a string. -/
inductive TCArg where
  | omitted
  | noneV
  | numV (q : ℚ)
  | strV (s : List Char)
  deriving DecidableEq

/-- Model of `Cue.__post_init__` restricted to the `timecode` field: a string
of length 11 is decoded with `timecode_to_float` (default fps, raising on a
malformed 11-character string), any other string becomes `None`; non-string
values, including the default `0.0`, are left unchanged. -/
def cue_post_init_timecode (timecode : TCArg) : Except PyErr (Option ℚ) :=
  match timecode with
  | .omitted => .ok (some 0)
  | .noneV => .ok none
  | .numV q => .ok (some q)
  | .strV s =>
    if s.length = 11 then
      match timecode_to_float s (utilsDefaultFps : ℚ) with
      | some v => .ok (some v)
      | none => .error .valueError
    else .ok none

/-- A Python value that is either a float or a string, as delivered in the
`data` field of a console reply. -/
inductive PyVal where
  | num (q : ℚ)
  | str (s : List Char)
  deriving DecidableEq

/-- Model of Python `float(s)` on the plain decimal strings the modelled code
feeds it (an optional single decimal point); anything else raises. -/
def pyFloat (cs : List Char) : Except PyErr ℚ :=
  match splitOnC '.' cs with
  | [a] =>
    match parseNatQ a with
    | some n => .ok (n : ℚ)
    | none => .error .valueError
  | [a, b] =>
    match parseNatQ a, parseNatQ b with
    | some n, some f => .ok ((n : ℚ) + (f : ℚ) / (10 : ℚ) ^ b.length)
    | _, _ => .error .valueError
  | _ => .error .valueError

/-- Model of `QLabCue.__post_init__` on the three wait fields.  The source is:
`if isinstance(self.duration, str): self.duration = float(self.duration)`,
then `if isinstance(self.pre_wait_time, str): self.pre_wait_time =
float(self.duration)` and likewise for `post_wait_time` — both of the latter
read `self.duration`, not their own field. -/
def qlab_post_init_waits (duration pre_wait post_wait : PyVal) :
    Except PyErr (ℚ × ℚ × ℚ) := do
  let d ← match duration with
    | .num q => Except.ok q
    | .str s => pyFloat s
  let p : ℚ := match pre_wait with
    | .num q => q
    | .str _ => d
  let po : ℚ := match post_wait with
    | .num q => q
    | .str _ => d
  Except.ok (d, p, po)

/-- The attribute fields of a `QLabCue` touched by the attribute backfill
loop of `CueManager.add_extra_qlab_data`.  Assignments in that loop bypass
`__post_init__`, so the raw reply value is stored. -/
structure QCueAttrs where
  duration : PyVal
  pre_wait_time : PyVal
  post_wait_time : PyVal
  timecode : PyVal
  deriving DecidableEq

/-- One iteration of the attribute loop of `add_extra_qlab_data`: the
`if attribute == ...` chain of assignments.  The `/postWait` branch of the
source assigns to `cue.pre_wait_time`. -/
def apply_attr (c : QCueAttrs) (attr : String) (data : PyVal) : QCueAttrs :=
  if attr = "/duration" then { c with duration := data }
  else if attr = "/preWait" then { c with pre_wait_time := data }
  else if attr = "/postWait" then { c with pre_wait_time := data }
  else if attr = "/timecodeTrigger/text" then { c with timecode := data }
  else c

/-- `attribute_query_list` of `add_extra_qlab_data`. -/
def attribute_query_list : List String :=
  ["/duration", "/preWait", "/postWait", "/timecodeTrigger/text"]

/-- The attribute backfill loop of `add_extra_qlab_data` applied to one cue,
with `reply a` the parsed `data` field of the reply to attribute query `a`. -/
def add_extra_qlab_waits (c : QCueAttrs) (reply : String → PyVal) : QCueAttrs :=
  attribute_query_list.foldl (fun acc a => apply_attr acc a (reply a)) c

/-
osc_handler.py: OSCHandler.query_and_wait.

The coroutine is modelled as a function of its environment:
* `freeAfter` describes when another in-flight query unregisters its handler
  for `response_address` (`none` = never, `some f` = after `f` poll ticks);
* `outcome` describes what happens to the response future after this call
  registers its handler and sends its query.
Time is counted in ticks of `check_interval = 0.1 s`; the `timeout = 5.0 s`
busy-wait ceiling is `timeoutTicks = 50` ticks.
-/

/-- The `timeout = 5.0` ceiling measured in `check_interval = 0.1` ticks. -/
def timeoutTicks : Nat := 50

/-- Whether a handler is mapped at `response_address` at poll tick `t`,
given that the other in-flight query frees it after `freeAfter` ticks. -/
def handlerPresent (freeAfter : Option Nat) (t : Nat) : Bool :=
  match freeAfter with
  | none => true
  | some f => t < f

/-- The busy-wait loop of `query_and_wait`:
`while dispatcher.handlers.get(response_address): await sleep(check_interval);
if elapsed > timeout: raise TimeoutError`.  Returns `some t` with `t` the
tick at which the handler was observed free, `none` when the loop raises.
The fuel argument is an upper bound on iterations; `timeoutTicks + 2` always
suffices because the loop raises once `t` exceeds `timeoutTicks`. -/
def busyLoop (freeAfter : Option Nat) : Nat → Nat → Option Nat
  | _, 0 => none
  | t, fuel + 1 =>
    if handlerPresent freeAfter t then
      if t + 1 > timeoutTicks then none
      else busyLoop freeAfter (t + 1) fuel
    else some t

/-- The busy-wait phase of `query_and_wait`, started at tick 0. -/
def busyWait (freeAfter : Option Nat) : Option Nat :=
  busyLoop freeAfter 0 (timeoutTicks + 2)

/-- What the environment does to the response future once the handler is
registered and the query sent. -/
inductive WaitOutcome where
  | reply (response_args : List (List Char))
  | noReply
  | cancelledDuringWait
  | errorDuringWait
  deriving DecidableEq

/-- How one call of `query_and_wait` ends.  `hang` records that the call
never returns (the `await response_future` never resolves); `busyTimeoutError`
is the `TimeoutError` raised by the busy-wait loop. -/
inductive QueryExit where
  | success (response_args : List (List Char))
  | busyTimeoutError
  | cancelled
  | waitError
  | hang
  deriving DecidableEq

/-- Observable result of one call of `query_and_wait`: how it ended, whether
a handler is mapped at `response_address` from then on, and the query
messages this call sent. -/
structure QueryRun where
  exitPath : QueryExit
  handlerRegistered : Bool
  sent : List (List Char × List (List Char))
  deriving DecidableEq

/-- Model of `OSCHandler.query_and_wait`.  The busy-wait loop runs first; if
it raises, nothing was registered or sent and the foreign handler (if still
alive at the raise tick) stays in the dispatch table.  Otherwise the call
maps its handler, sends the query, and the `try/finally` unmaps the handler
on the success, cancellation and error paths; when the reply never arrives
the bare `await response_future` suspends forever and the `finally` never
runs, leaving the handler mapped. -/
def query_and_wait (freeAfter : Option Nat) (outcome : WaitOutcome)
    (query_address : List Char) (args : List (List Char)) : QueryRun :=
  match busyWait freeAfter with
  | none => ⟨.busyTimeoutError, handlerPresent freeAfter (timeoutTicks + 1), []⟩
  | some _ =>
    match outcome with
    | .reply r => ⟨.success r, false, [(query_address, args)]⟩
    | .noReply => ⟨.hang, true, [(query_address, args)]⟩
    | .cancelledDuringWait => ⟨.cancelled, false, [(query_address, args)]⟩
    | .errorDuringWait => ⟨.waitError, false, [(query_address, args)]⟩

/-
osc_handler.py: start_client.
-/

/-- A server address as the source passes it around after a prompt: either
component may be `None`. -/
abbrev NetAddr := Option (List Char) × Option Int

/-- The value `start_client` resolves to: the client task, or `None`. -/
inductive ClientResult where
  | task (address : NetAddr)
  | noTask
  deriving DecidableEq

/-- Model of `start_client`.  The environment is one entry per connection
attempt: whether `client.is_connected()` holds after the settle sleep, and
what `gui.network_error_prompt` resolves to if it does not.  The result pairs
the return value (`none` when the modelled environment is exhausted) with the
list of addresses on which connection attempts were performed, in order.
The source retries exactly when `new_address[0] is not None or
new_address[1] is not None`, passing the prompt tuple on unchanged. -/
def start_client : NetAddr → List (Bool × NetAddr) → Option ClientResult × List NetAddr
  | _, [] => (none, [])
  | addr, (connected, prompt) :: rest =>
    if connected then (some (.task addr), [addr])
    else if prompt.1 = none ∧ prompt.2 = none then (some .noTask, [addr])
    else
      let r := start_client prompt rest
      (r.1, addr :: r.2)

/-
cue.py: CueManager and the EOS synchronization pass.

Python dicts keyed by uid are modelled as association lists with
insert-or-overwrite update; object references to parents are modelled as the
uid of the referenced object (the registry plays the role of the heap).
-/

/-- Insert-or-overwrite update of an association list, preserving the
position of an existing key like a Python dict does. -/
def dinsert {α : Type} (m : List (List Char × α)) (k : List Char) (v : α) :
    List (List Char × α) :=
  if (List.lookup k m).isSome then m.map (fun p => if p.1 = k then (k, v) else p)
  else m ++ [(k, v)]

/-- Model of `del d[k]` / `d.pop(k)` on an association list. -/
def derase {α : Type} (m : List (List Char × α)) (k : List Char) :
    List (List Char × α) :=
  m.filter (fun p => p.1 != k)

/-- Model of `xs[i]` on a Python list: `IndexError` when out of range. -/
def pyIndex {α : Type} (xs : List α) (i : Nat) : Except PyErr α :=
  match xs.get? i with
  | some x => .ok x
  | none => .error .indexError

/-- Model of the `EOSCue` dataclass: `uid`, the inherited `number` (default
`0.0`), `label`, the post-init normalized `timecode`, and the non-owning
`parent_cue_list` reference (modelled as the uid of the cue list). -/
structure EOSCue where
  uid : List Char
  number : ℚ
  label : List Char
  timecode : Option ℚ
  parent_cue_list : Option (List Char)
  deriving DecidableEq

/-- Model of the `EOSCueList` dataclass.  Its only mapping field is
`cue_list_dict`; values are the contained cues. -/
structure EOSCueList where
  uid : List Char
  number : Int
  cue_list_dict : List (List Char × EOSCue)
  deriving DecidableEq

/-- An entry of the `eos_cues` registry dict, which holds cue list objects
and (via `add_eos_cue`) cue objects. -/
inductive EosEntry where
  | list (l : EOSCueList)
  | cue (c : EOSCue)
  deriving DecidableEq

abbrev EosRegistry := List (List Char × EosEntry)

/-- One reply delivered by `CueManager.query`: the echoed address and the
argument payload (all arguments modelled as strings). -/
structure OscReply where
  address : List Char
  payload : List (List Char)

/-- The EOS console environment for one synchronization pass: the reply to
the cue list count query, to each indexed cue list query, to each per-list
cue count query, and to each indexed cue query. -/
structure EosEnv where
  countReply : OscReply
  listReply : Nat → OscReply
  cueCountReply : Int → OscReply
  cueReply : Int → Nat → OscReply

/-- Model of `CueManager.populate_eos_cue_dict` on the success path of every
query.  The local variable `response` of the source is rebound by the count
queries and by every per-cue query, but not by the indexed cue list query
(which binds `cue_list_data` instead); `cue_list_uid = response[1]` therefore
reads the most recent other reply, which this model threads through the
folds.  Cues with a non-zero part number in the echoed address are skipped.
Built cues are inserted into the cue list object mapping only; the registry
receives the cue list objects. -/
def populate_eos_cue_dict (env : EosEnv) : Except PyErr EosRegistry := do
  let resp0 := env.countReply.payload
  let c0 ← pyIndex resp0 0
  let cue_list_count ← pyInt c0
  let final ← (List.range cue_list_count.toNat).foldlM
    (fun (st : EosRegistry × List (List Char)) cue_list => do
      let (eos_cues, resp) := st
      let r := env.listReply cue_list
      let components := splitOnC '/' r.address
      let cue_list_uid ← pyIndex resp 1
      let numS ← pyIndex components 6
      let cue_list_number ← pyInt numS
      let ccR := env.cueCountReply cue_list_number
      let cc0 ← pyIndex ccR.payload 0
      let cue_count ← pyInt cc0
      let inner ← (List.range cue_count.toNat).foldlM
        (fun (st2 : List (List Char × EOSCue) × List (List Char)) cue => do
          let (cues, _) := st2
          let cr := env.cueReply cue_list_number cue
          let resp2 := cr.payload
          let components2 := splitOnC '/' cr.address
          let cnS ← pyIndex components2 6
          let _cue_number ← pyInt cnS
          let pnS ← pyIndex components2 7
          let part_number ← pyInt pnS
          if part_number ≠ 0 then
            pure (cues, resp2)
          else do
            let cue_uid ← pyIndex resp2 1
            let label ← pyIndex resp2 2
            let tc ← pyIndex resp2 25
            let tc2 := if tc.length ≠ 11 then ([] : List Char) else tc
            let tcv ← cue_post_init_timecode (.strV tc2)
            pure (dinsert cues cue_uid ⟨cue_uid, 0, label, tcv, some cue_list_uid⟩, resp2))
        (([] : List (List Char × EOSCue)), ccR.payload)
      pure (dinsert eos_cues cue_list_uid (.list ⟨cue_list_uid, cue_list_number, inner.1⟩), inner.2))
    (([] : EosRegistry), resp0)
  pure final.1

/-- The data of one `qlab_cues` registry entry needed by `remove_qlab_cue`:
the non-owning `parent_cue` reference (as a uid) and the key set of the
`cue_dict` child mapping. -/
structure QLabEntry where
  parent_cue : Option (List Char)
  cue_dict : List (List Char)
  deriving DecidableEq

abbrev QLabRegistry := List (List Char × QLabEntry)

/-- Model of `CueManager.remove_qlab_cue`.  `pop(cue_id, None)` removes the
entry first; a truthy `cue.parent_cue` then has `cue_id` deleted from its
`cue_dict` (`del` raises `KeyError` when the key is absent; the referenced
parent object is looked up in the registry, which models the heap).  An
unknown `cue_id` raises `ValueError` with the registry untouched.  On error
the registry state at the raise is carried in the error value. -/
def remove_qlab_cue (reg : QLabRegistry) (cue_id : List Char) :
    Except (PyErr × QLabRegistry) QLabRegistry :=
  match List.lookup cue_id reg with
  | none => .error (.valueError, reg)
  | some cue =>
    let reg1 := derase reg cue_id
    match cue.parent_cue with
    | none => .ok reg1
    | some p =>
      match List.lookup p reg1 with
      | none => .error (.keyError, reg1)
      | some pe =>
        if cue_id ∈ pe.cue_dict then
          .ok (dinsert reg1 p ⟨pe.parent_cue, pe.cue_dict.filter (fun c => c != cue_id)⟩)
        else .error (.keyError, reg1)

/-- Model of `CueManager.remove_eos_cue`.  After the pop, the source
evaluates `cue.parent_cue_list`: an `EOSCueList` entry has no such attribute,
so that raises `AttributeError`; for a cue whose `parent_cue_list` is set,
the source then evaluates `cue.parent_cue_list.cue_dict`, and `EOSCueList`
defines `cue_list_dict` but no `cue_dict`, so that also raises
`AttributeError`.  Only a cue with no parent reaches the normal return. -/
def remove_eos_cue (reg : EosRegistry) (cue_id : List Char) :
    Except (PyErr × EosRegistry) EosRegistry :=
  match List.lookup cue_id reg with
  | none => .error (.valueError, reg)
  | some e =>
    let reg1 := derase reg cue_id
    match e with
    | .list _ => .error (.attributeError, reg1)
    | .cue c =>
      match c.parent_cue_list with
      | none => .ok reg1
      | some _ => .error (.attributeError, reg1)

/-
Concrete inputs used to evaluate the models in the theorems below.
-/

/-- A QLab registry with a root cue `P` whose `cue_dict` contains `C`, and
the cue `C` with `parent_cue` referencing `P`. -/
def qlabRegEx : QLabRegistry :=
  [("P".toList, ⟨none, ["C".toList]⟩), ("C".toList, ⟨some ("P".toList), []⟩)]

/-- An EOS cue `C` owned by cue list `L`. -/
def eosCueEx : EOSCue := ⟨"C".toList, 0, "Go".toList, none, some ("L".toList)⟩

/-- An EOS registry holding the cue list `L` (whose `cue_list_dict` contains
`C`) and, as inserted by `add_eos_cue`, the cue `C` itself. -/
def eosRegEx : EosRegistry :=
  [("L".toList, .list ⟨"L".toList, 1, [("C".toList, eosCueEx)]⟩),
   ("C".toList, .cue eosCueEx)]

/-- The payload of the primary-part cue reply of the synchronization
scenario: uid `C1`, label `Go`, timecode text `00:00:05:00` at index 25. -/
def payloadC7cue0 : List (List Char) :=
  ["0".toList, "C1".toList, "Go".toList] ++
    List.replicate 22 ("x".toList) ++ ["00:00:05:00".toList]

/-- The EOS console environment of the synchronization scenario: one cue
list (uid `L1`, number 1) containing two per-cue replies, the first with
part number 0 (uid `C1`) and the second with part number 1. -/
def envC7 : EosEnv where
  countReply := ⟨"/eos/out/get/cuelist/count".toList, ["1".toList, "L1".toList]⟩
  listReply := fun _ => ⟨"/eos/out/get/cuelist/x/1/0".toList, []⟩
  cueCountReply := fun _ => ⟨"/eos/out/get/cue/1/count".toList, ["2".toList]⟩
  cueReply := fun _ j =>
    if j = 0 then ⟨"/eos/out/get/cue/1/1/0/list/0/26".toList, payloadC7cue0⟩
    else ⟨"/eos/out/get/cue/1/2/1/list/1/26".toList, []⟩

/-- The registry produced by the synchronization scenario: one cue list
entry whose mapping holds the single primary-part cue. -/
def regC7 : EosRegistry :=
  [("L1".toList,
    .list ⟨"L1".toList, 1,
      [("C1".toList, ⟨"C1".toList, 0, "Go".toList, some 5, some ("L1".toList)⟩)]⟩)]

/-
Helper lemmas.
-/

theorem busyLoop_eq_some {freeAfter : Option Nat} :
    ∀ fuel t tf, busyLoop freeAfter t fuel = some tf →
      handlerPresent freeAfter tf = false := by
  intro fuel
  induction fuel with
  | zero => intro t tf h; simp [busyLoop] at h
  | succ n ih =>
    intro t tf h
    unfold busyLoop at h
    by_cases hp : handlerPresent freeAfter t = true
    · rw [if_pos hp] at h
      by_cases hto : t + 1 > timeoutTicks
      · rw [if_pos hto] at h; cases h
      · rw [if_neg hto] at h
        exact ih (t + 1) tf h
    · rw [if_neg hp] at h
      cases h
      exact Bool.eq_false_iff.mpr hp

theorem busyLoop_le {freeAfter : Option Nat} :
    ∀ fuel t tf, t ≤ timeoutTicks → busyLoop freeAfter t fuel = some tf →
      tf ≤ timeoutTicks := by
  intro fuel
  induction fuel with
  | zero => intro t tf ht h; simp [busyLoop] at h
  | succ n ih =>
    intro t tf ht h
    unfold busyLoop at h
    by_cases hp : handlerPresent freeAfter t = true
    · rw [if_pos hp] at h
      by_cases hto : t + 1 > timeoutTicks
      · rw [if_pos hto] at h; cases h
      · rw [if_neg hto] at h
        exact ih (t + 1) tf (by omega) h
    · rw [if_neg hp] at h
      cases h
      exact ht

theorem busyWait_free {freeAfter : Option Nat} {tf : Nat}
    (h : busyWait freeAfter = some tf) : handlerPresent freeAfter tf = false :=
  busyLoop_eq_some _ 0 tf h

theorem busyWait_none_of_never_freed {freeAfter : Option Nat}
    (h : freeAfter = none ∨ ∃ k, freeAfter = some k ∧ timeoutTicks < k) :
    busyWait freeAfter = none := by
  cases hw : busyWait freeAfter with
  | none => rfl
  | some tf =>
    exfalso
    have hfree := busyWait_free hw
    have hle := busyLoop_le (timeoutTicks + 2) 0 tf (by omega) hw
    rcases h with h | ⟨k, hk, hkgt⟩
    · rw [h] at hfree; simp [handlerPresent] at hfree
    · rw [hk] at hfree
      simp [handlerPresent] at hfree
      omega

/-
C1 and its counterexample.
-/

/-- C1 (counterexample): a call of `query_and_wait` whose busy-wait loop
raises its `TimeoutError` — an exit by timeout — ends with a handler still
registered for the response address (the handler of the other in-flight
query, which in this run is never unregistered), so the dispatch table does
not end empty at that address on every exit path. -/
theorem query_and_wait_busy_timeout_leaves_handler :
    (query_and_wait none (.reply []) ("/q".toList) []).exitPath =
        QueryExit.busyTimeoutError ∧
    (query_and_wait none (.reply []) ("/q".toList) []).handlerRegistered = true := by
  decide

/-- C1 (amended): on every exit path that occurs after the call has
registered its own handler — successful reply, cancellation, or any error
raised during the response wait — the dispatch table ends with no handler
registered for the response address; only the busy-timeout exit, which
happens before registration, can leave a (foreign) handler in place, and a
run that never exits keeps its handler registered but has no exit path. -/
theorem query_and_wait_unmaps_handler_after_registration
    (freeAfter : Option Nat) (outcome : WaitOutcome)
    (qa : List Char) (args : List (List Char))
    (hbusy : (query_and_wait freeAfter outcome qa args).exitPath ≠
        QueryExit.busyTimeoutError)
    (hhang : (query_and_wait freeAfter outcome qa args).exitPath ≠
        QueryExit.hang) :
    (query_and_wait freeAfter outcome qa args).handlerRegistered = false := by
  unfold query_and_wait at hbusy hhang ⊢
  generalize hw : busyWait freeAfter = w at hbusy hhang ⊢
  cases w with
  | none => exact absurd rfl hbusy
  | some tf =>
    cases outcome with
    | reply r => rfl
    | noReply => exact absurd rfl hhang
    | cancelledDuringWait => rfl
    | errorDuringWait => rfl

theorem query_and_wait_unmaps_handler_after_registration_witness :
    (query_and_wait (some 0) (.reply []) ("/q".toList) []).exitPath ≠
        QueryExit.busyTimeoutError ∧
    (query_and_wait (some 0) (.reply []) ("/q".toList) []).exitPath ≠
        QueryExit.hang ∧
    (query_and_wait (some 0) (.reply []) ("/q".toList) []).handlerRegistered =
        false :=
  ⟨by decide, by decide,
    query_and_wait_unmaps_handler_after_registration (some 0) (.reply [])
      ("/q".toList) [] (by decide) (by decide)⟩

/-
C2 and its counterexample.
-/

/-- C2 (counterexample): a query whose reply never arrives, issued when the
response address is free at once, does not fail with any timeout error after
the fixed timeout — the call never returns at all (the bare
`await response_future` has no deadline), with the query already sent and
the handler still registered. -/
theorem query_and_wait_no_reply_hangs :
    (query_and_wait (some 0) .noReply ("/q".toList) []).exitPath =
        QueryExit.hang ∧
    (query_and_wait (some 0) .noReply ("/q".toList) []).exitPath ≠
        QueryExit.busyTimeoutError ∧
    (query_and_wait (some 0) .noReply ("/q".toList) []).sent ≠ [] ∧
    (query_and_wait (some 0) .noReply ("/q".toList) []).handlerRegistered =
        true := by
  decide

/-- C2 (amended): the fixed timeout bounds only the busy-wait for the
response address to become free; once the handler is registered and the
query message sent, a reply that never arrives leaves the call suspended
indefinitely — no query-timeout error is raised on that path. -/
theorem query_and_wait_reply_never_arrives_hangs
    (freeAfter : Option Nat) (qa : List Char) (args : List (List Char))
    (tf : Nat) (h : busyWait freeAfter = some tf) :
    (query_and_wait freeAfter .noReply qa args).exitPath = QueryExit.hang ∧
    (query_and_wait freeAfter .noReply qa args).sent = [(qa, args)] := by
  unfold query_and_wait
  rw [h]
  exact ⟨rfl, rfl⟩

theorem query_and_wait_reply_never_arrives_hangs_witness :
    busyWait (some 0) = some 0 ∧
    (query_and_wait (some 0) .noReply ("/q".toList) []).exitPath =
        QueryExit.hang ∧
    (query_and_wait (some 0) .noReply ("/q".toList) []).sent =
        [("/q".toList, [])] :=
  ⟨by decide,
    query_and_wait_reply_never_arrives_hangs (some 0) ("/q".toList) [] 0
      (by decide)⟩

/-
C3.
-/

/-- C3: per-response-address serialization.  First, a call that exits with
the busy-timeout error has sent nothing.  Second, whenever a call sends its
query message, the busy-wait has returned at a tick at which the handler of
the other in-flight query was no longer registered, so the second query is
never sent while the first handler is still mapped.  Third, if the other
handler is never freed within the fixed ceiling, the call fails with the
busy-timeout error without sending. -/
theorem query_and_wait_serializes_per_response_address :
    (∀ (freeAfter : Option Nat) (outcome : WaitOutcome) (qa : List Char)
        (args : List (List Char)),
      (query_and_wait freeAfter outcome qa args).exitPath =
          QueryExit.busyTimeoutError →
      (query_and_wait freeAfter outcome qa args).sent = []) ∧
    (∀ (freeAfter : Option Nat) (outcome : WaitOutcome) (qa : List Char)
        (args : List (List Char)),
      (query_and_wait freeAfter outcome qa args).sent ≠ [] →
      ∃ tf, busyWait freeAfter = some tf ∧
        handlerPresent freeAfter tf = false) ∧
    (∀ (freeAfter : Option Nat) (outcome : WaitOutcome) (qa : List Char)
        (args : List (List Char)),
      (freeAfter = none ∨ ∃ k, freeAfter = some k ∧ timeoutTicks < k) →
      (query_and_wait freeAfter outcome qa args).exitPath =
          QueryExit.busyTimeoutError ∧
      (query_and_wait freeAfter outcome qa args).sent = []) := by
  refine ⟨?_, ?_, ?_⟩
  · intro freeAfter outcome qa args h
    unfold query_and_wait at h ⊢
    generalize hw : busyWait freeAfter = w at h ⊢
    cases w with
    | none => rfl
    | some tf => cases outcome <;> simp at h
  · intro freeAfter outcome qa args h
    unfold query_and_wait at h
    generalize hw : busyWait freeAfter = w at h
    cases w with
    | none => exact absurd rfl h
    | some tf => exact ⟨tf, rfl, busyWait_free hw⟩
  · intro freeAfter outcome qa args h
    unfold query_and_wait
    rw [busyWait_none_of_never_freed h]
    exact ⟨rfl, rfl⟩

theorem query_and_wait_serializes_per_response_address_witness :
    (query_and_wait none (.reply []) ("/q".toList) []).exitPath =
        QueryExit.busyTimeoutError ∧
    (query_and_wait none (.reply []) ("/q".toList) []).sent = [] :=
  query_and_wait_serializes_per_response_address.2.2 none (.reply [])
    ("/q".toList) [] (Or.inl rfl)

/-
C9.
-/

/-- C9: if a connection attempt fails and the prompt resolves to
`(None, None)`, `start_client` returns failure (`None`) after exactly that
one attempt, performing no further connection attempt; and whenever a run
performs more than one attempt, the first attempt failed and its prompt
returned a tuple with at least one non-null component. -/
theorem start_client_null_prompt_aborts :
    (∀ (addr : NetAddr) (rest : List (Bool × NetAddr)),
      start_client addr ((false, (none, none)) :: rest) =
        (some ClientResult.noTask, [addr])) ∧
    (∀ (addr : NetAddr) (env : List (Bool × NetAddr)),
      1 < (start_client addr env).2.length →
      ∃ c p rest, env = (c, p) :: rest ∧ c = false ∧
        ¬(p.1 = none ∧ p.2 = none)) := by
  constructor
  · intro addr rest
    simp [start_client]
  · intro addr env h
    cases env with
    | nil => simp [start_client] at h
    | cons hd rest =>
      obtain ⟨c, p⟩ := hd
      cases c with
      | true => simp [start_client] at h
      | false =>
        by_cases hp : p.1 = none ∧ p.2 = none
        · exfalso
          unfold start_client at h
          rw [if_neg (by simp), if_pos hp] at h
          simp at h
        · exact ⟨false, p, rest, rfl, rfl, hp⟩

theorem start_client_null_prompt_aborts_witness :
    ∃ (c : Bool) (p : NetAddr) (rest : List (Bool × NetAddr)),
      [((false : Bool), ((some ("h".toList), none) : NetAddr)),
        (true, (none, none))] = (c, p) :: rest ∧ c = false ∧
      ¬(p.1 = none ∧ p.2 = none) :=
  start_client_null_prompt_aborts.2 (some ("g".toList), some 1)
    [(false, (some ("h".toList), none)), (true, (none, none))] (by decide)

/-
C10.
-/

theorem utilsDefaultFps_cast : (utilsDefaultFps : ℚ) = 30 := by
  norm_num [utilsDefaultFps, initSettings]

/-- C10: calling `change_fps` (any number of times, with any values) has no
effect on codec calls that omit the `fps` argument: they keep using the
frame rate bound when the module was loaded (30), because the default
parameter captured that value at function definition time.  Meanwhile the
settings state itself does change, and the changed rate would give a
different result for an input with a nonzero frame field, so the two
frame rates are observably distinct. -/
theorem change_fps_does_not_affect_default_codec_calls :
    (∀ (changes : List Nat) (t : List Char) (s : ℚ),
      timecode_to_float_nofps (changes.foldl change_fps initSettings) t =
          timecode_to_float t 30 ∧
      float_to_timecode_nofps (changes.foldl change_fps initSettings) s =
          float_to_timecode s 30) ∧
    (change_fps initSettings 25).TIMECODE_FPS = 25 ∧
    timecode_to_float ("00:00:00:15".toList) 25 ≠
      timecode_to_float ("00:00:00:15".toList) 30 := by
  refine ⟨?_, rfl, by decide⟩
  intro changes t s
  unfold timecode_to_float_nofps float_to_timecode_nofps
  rw [utilsDefaultFps_cast]
  exact ⟨rfl, rfl⟩

/-
C6 and its counterexample.
-/

/-- C6 (counterexample): a cue constructed with no timecode argument at all
keeps the dataclass default `0.0`: its timecode field is the number zero,
not the absent value `None`. -/
theorem cue_default_timecode_is_zero :
    cue_post_init_timecode TCArg.omitted = Except.ok (some 0) ∧
    cue_post_init_timecode TCArg.omitted ≠ Except.ok none := by
  decide

/-- C6 (amended): any timecode string whose length is not exactly 11 is
normalized to absent (`None`) without raising, and an explicit `None` stays
absent; but a cue constructed with the timecode argument omitted keeps the
default `0.0`, so absence-by-default is represented as the number zero
(masked only by the `timecode_str` property, which reports falsy values as
`None`). -/
theorem cue_short_timecode_normalized_absent
    (s : List Char) (h : s.length ≠ 11) :
    cue_post_init_timecode (TCArg.strV s) = Except.ok none ∧
    cue_post_init_timecode TCArg.noneV = Except.ok none ∧
    cue_post_init_timecode TCArg.omitted = Except.ok (some 0) := by
  refine ⟨?_, rfl, rfl⟩
  simp only [cue_post_init_timecode]
  rw [if_neg h]

theorem cue_short_timecode_normalized_absent_witness :
    ("bad".toList.length ≠ 11) ∧
    cue_post_init_timecode (TCArg.strV ("bad".toList)) = Except.ok none :=
  ⟨by decide, (cue_short_timecode_normalized_absent ("bad".toList) (by decide)).1⟩

/-
C4.
-/

/-- C4 (code evaluation at the failing input): with replies duration = 5.0,
preWait = 2.0, postWait = 7.0, the backfill loop writes the `/postWait`
reply into `pre_wait_time` (overwriting the `/preWait` reply) and leaves
`post_wait_time` at its prior value 0; and a `QLabCue` constructed with
duration 5.0 and string waits "2.0" and "7.0" coerces both waits from the
duration, yielding 5.0 for both, instead of from their own reply values. -/
theorem qlab_postwait_reply_aliases_prewait :
    add_extra_qlab_waits ⟨.num 0, .num 0, .num 0, .num 0⟩
        (fun a => if a = "/duration" then .num 5
          else if a = "/preWait" then .num 2
          else if a = "/postWait" then .num 7
          else .str ("00:00:01:00".toList)) =
      ⟨.num 5, .num 7, .num 0, .str ("00:00:01:00".toList)⟩ ∧
    qlab_post_init_waits (.num 5) (.str ("2.0".toList)) (.str ("7.0".toList)) =
      Except.ok (5, 5, 5) := by
  decide

/-
C7.
-/

/-- C7 (code evaluation at the failing input): on the scenario with one cue
list `L1` and two per-cue replies (part 0 with uid `C1`, then part 1), the
pass skips the part-1 reply and builds `C1` inside the cue list mapping,
but the flat `eos_cues` registry ends containing only the cue list `L1`:
looking up `C1` in the registry yields nothing, contrary to the claim that
every primary-part cue is also registered under its uid. -/
theorem populate_eos_omits_cues_from_registry :
    populate_eos_cue_dict envC7 = Except.ok regC7 ∧
    List.lookup ("C1".toList) regC7 = none ∧
    List.lookup ("L1".toList) regC7 =
      some (.list ⟨"L1".toList, 1,
        [("C1".toList,
          ⟨"C1".toList, 0, "Go".toList, some 5, some ("L1".toList)⟩)]⟩) := by
  decide

/-
C8.
-/

/-- C8 (code evaluation at the failing input): removing an absent uid from
either registry raises `ValueError` and leaves the registry unchanged;
removing a present QLab cue detaches it from the parent mapping and deletes
the entry; but removing a present EOS cue that has a parent cue list raises
`AttributeError` (the source reads `cue.parent_cue_list.cue_dict`, and
`EOSCueList` defines `cue_list_dict`, not `cue_dict`) after the pop has
already removed the registry entry, leaving the cue still dangling in the
parent mapping instead of detaching it. -/
theorem remove_cue_registry_behavior :
    remove_qlab_cue qlabRegEx ("Z".toList) =
      .error (.valueError, qlabRegEx) ∧
    remove_qlab_cue qlabRegEx ("C".toList) =
      .ok [("P".toList, ⟨none, []⟩)] ∧
    remove_eos_cue eosRegEx ("Z".toList) =
      .error (.valueError, eosRegEx) ∧
    remove_eos_cue eosRegEx ("C".toList) =
      .error (.attributeError,
        [("L".toList, .list ⟨"L".toList, 1, [("C".toList, eosCueEx)]⟩)]) :=
  ⟨by decide, by decide, by decide, by decide⟩

/-
C5: round-trip of the timecode codec.
-/

theorem digitChar_isDigit {d : Nat} (hd : d < 10) :
    (Nat.digitChar d).isDigit = true := by
  interval_cases d <;> decide

theorem digitChar_toNat {d : Nat} (hd : d < 10) :
    (Nat.digitChar d).toNat = d + 48 := by
  interval_cases d <;> decide

theorem digitChar_ne_colon {d : Nat} (hd : d < 10) :
    Nat.digitChar d ≠ ':' := by
  interval_cases d <;> decide

theorem f2_eq {n : Nat} (h : n < 100) :
    f2 n = [Nat.digitChar (n / 10), Nat.digitChar (n % 10)] := by
  unfold f2
  rw [if_pos h]

theorem f2_not_colon {n : Nat} (h : n < 100) : ∀ c ∈ f2 n, c ≠ ':' := by
  rw [f2_eq h]
  intro c hc
  have h1 : n / 10 < 10 := by omega
  have h2 : n % 10 < 10 := by omega
  simp only [List.mem_cons, List.not_mem_nil, or_false] at hc
  rcases hc with rfl | rfl
  · exact digitChar_ne_colon h1
  · exact digitChar_ne_colon h2

theorem parseNatQ_f2 {n : Nat} (h : n < 100) : parseNatQ (f2 n) = some n := by
  have h1 : n / 10 < 10 := by omega
  have h2 : n % 10 < 10 := by omega
  rw [f2_eq h]
  unfold parseNatQ
  rw [if_pos]
  · unfold parseNatDigits
    simp only [List.foldl_cons, List.foldl_nil]
    rw [digitChar_toNat h1, digitChar_toNat h2]
    congr 1
    omega
  · refine ⟨by simp, ?_⟩
    simp [List.all_cons, digitChar_isDigit h1, digitChar_isDigit h2]

theorem splitOnC_append {sep : Char} (xs ys : List Char)
    (h : ∀ c ∈ xs, c ≠ sep) :
    splitOnC sep (xs ++ sep :: ys) = xs :: splitOnC sep ys := by
  induction xs with
  | nil => simp [splitOnC]
  | cons c cs ih =>
    have hc : c ≠ sep := h c (List.mem_cons_self c cs)
    have ih2 := ih (fun d hd => h d (List.mem_cons_of_mem c hd))
    simp only [List.cons_append]
    conv_lhs => rw [splitOnC]
    rw [if_neg hc, ih2]

theorem splitOnC_no_sep {sep : Char} (xs : List Char)
    (h : ∀ c ∈ xs, c ≠ sep) :
    splitOnC sep xs = [xs] := by
  induction xs with
  | nil => rfl
  | cons c cs ih =>
    have hc : c ≠ sep := h c (List.mem_cons_self c cs)
    have ih2 := ih (fun d hd => h d (List.mem_cons_of_mem c hd))
    conv_lhs => rw [splitOnC]
    rw [if_neg hc, ih2]

theorem splitOnC_renderTC {hh mm ss ff : Nat}
    (h1 : hh < 100) (h2 : mm < 100) (h3 : ss < 100) (h4 : ff < 100) :
    splitOnC ':' (renderTC hh mm ss ff) = [f2 hh, f2 mm, f2 ss, f2 ff] := by
  unfold renderTC
  rw [splitOnC_append _ _ (f2_not_colon h1),
    splitOnC_append _ _ (f2_not_colon h2),
    splitOnC_append _ _ (f2_not_colon h3),
    splitOnC_no_sep _ (f2_not_colon h4)]

theorem timecode_to_float_renderTC {hh mm ss ff : Nat}
    (h1 : hh < 100) (h2 : mm < 100) (h3 : ss < 100) (h4 : ff < 100)
    (fps : ℚ) :
    timecode_to_float (renderTC hh mm ss ff) fps =
      some ((hh : ℚ) * 3600 + (mm : ℚ) * 60 + (ss : ℚ) + (ff : ℚ) / fps) := by
  unfold timecode_to_float
  simp only [splitOnC_renderTC h1 h2 h3 h4, parseNatQ_f2 h1, parseNatQ_f2 h2,
    parseNatQ_f2 h3, parseNatQ_f2 h4]

theorem fmtInt_natCast (n : Nat) : fmtInt (n : Int) = f2 n := by
  unfold fmtInt
  rw [if_neg (by omega)]
  congr 1

theorem float_to_timecode_eval {hh mm ss ff : Nat} {fps : ℚ}
    (h2 : mm < 60) (h3 : ss < 60) (hfps : 0 < fps) (hff : (ff : ℚ) < fps) :
    float_to_timecode
        ((hh : ℚ) * 3600 + (mm : ℚ) * 60 + (ss : ℚ) + (ff : ℚ) / fps) fps =
      renderTC hh mm ss ff := by
  have hfne : fps ≠ 0 := ne_of_gt hfps
  have hmq : (mm : ℚ) ≤ 59 := by exact_mod_cast Nat.lt_succ_iff.mp h2
  have hsq : (ss : ℚ) ≤ 59 := by exact_mod_cast Nat.lt_succ_iff.mp h3
  have hm0 : (0 : ℚ) ≤ (mm : ℚ) * 60 := by positivity
  have hs0 : (0 : ℚ) ≤ (ss : ℚ) := by positivity
  have hh0 : (0 : ℚ) ≤ (hh : ℚ) * 3600 := by positivity
  have hf0 : (0 : ℚ) ≤ (ff : ℚ) / fps := div_nonneg (by positivity) hfps.le
  have hf1 : (ff : ℚ) / fps < 1 := (div_lt_one hfps).mpr hff
  set v : ℚ := (hh : ℚ) * 3600 + (mm : ℚ) * 60 + (ss : ℚ) + (ff : ℚ) / fps
    with hv
  have e1 : ⌊v / 3600⌋ = (hh : ℤ) := by
    rw [Int.floor_eq_iff]
    constructor
    · rw [hv, le_div_iff₀ (by norm_num : (0 : ℚ) < 3600)]
      push_cast
      linarith
    · rw [hv, div_lt_iff₀ (by norm_num : (0 : ℚ) < 3600)]
      push_cast
      linarith
  have e2 : pyMod v 3600 = (mm : ℚ) * 60 + (ss : ℚ) + (ff : ℚ) / fps := by
    unfold pyMod
    rw [e1, hv]
    push_cast
    ring
  have e3 : ⌊((mm : ℚ) * 60 + (ss : ℚ) + (ff : ℚ) / fps) / 60⌋ = (mm : ℤ) := by
    rw [Int.floor_eq_iff]
    constructor
    · rw [le_div_iff₀ (by norm_num : (0 : ℚ) < 60)]
      push_cast
      linarith
    · rw [div_lt_iff₀ (by norm_num : (0 : ℚ) < 60)]
      push_cast
      linarith
  have e4 : pyMod ((mm : ℚ) * 60 + (ss : ℚ) + (ff : ℚ) / fps) 60 =
      (ss : ℚ) + (ff : ℚ) / fps := by
    unfold pyMod
    rw [e3]
    push_cast
    ring
  have e5 : pyTrunc ((ss : ℚ) + (ff : ℚ) / fps) = (ss : ℤ) := by
    unfold pyTrunc
    rw [if_pos (add_nonneg hs0 hf0), Int.floor_eq_iff]
    constructor
    · push_cast
      linarith
    · push_cast
      linarith
  have e6 : pyTrunc ((((ss : ℚ) + (ff : ℚ) / fps) - ((ss : ℤ) : ℚ)) * fps) =
      (ff : ℤ) := by
    have hstep : (((ss : ℚ) + (ff : ℚ) / fps) - ((ss : ℤ) : ℚ)) =
        (ff : ℚ) / fps := by
      push_cast
      ring
    rw [hstep, div_mul_cancel₀ _ hfne]
    unfold pyTrunc
    rw [if_pos (by positivity)]
    exact_mod_cast Int.floor_natCast ff
  simp only [float_to_timecode]
  rw [e2, e4, e5, e6, e1, e3]
  rw [fmtInt_natCast, fmtInt_natCast, fmtInt_natCast, fmtInt_natCast]
  rfl

/-- C5 (counterexample): under the IEEE-double arithmetic the program
actually computes with, the round-trip fails at the valid timecode
`01:02:03:04` with `fps = 30` (each field two digits, minutes and seconds
below 60, frame field `4 < 30`): decoding gives the double nearest to
3723.1333…, and re-encoding computes `(seconds - ss) * fps` as a double
just below 4, which `int()` truncates to 3, producing `01:02:03:03`. -/
theorem timecode_roundtrip_fails_under_doubles :
    (timecode_to_float_fp ("01:02:03:04".toList) 30).map
        (fun seconds => float_to_timecode_fp seconds 30) =
      some ("01:02:03:03".toList) ∧
    ("01:02:03:03".toList : List Char) ≠ "01:02:03:04".toList :=
  ⟨by decide, by decide⟩

/-- C5 (amended): with exact arithmetic in place of IEEE doubles, the
round-trip does hold — for every valid timecode string of the form
`HH:MM:SS:FF` (each field two digits, minutes and seconds below 60) whose
frame field lies in `[0, fps)`, encoding the exactly decoded seconds value
reproduces the string: the codec round-trips up to floating-point rounding
of the frame computation, and it is only that rounding (see the
counterexample) that breaks the exact round-trip in the program. -/
theorem timecode_roundtrip (hh mm ss ff : Nat) (fps : ℚ)
    (hhh : hh < 100) (hmm : mm < 60) (hss : ss < 60) (hffd : ff < 100)
    (hfps : 0 < fps) (hff : (ff : ℚ) < fps) :
    (timecode_to_float (renderTC hh mm ss ff) fps).map
        (fun seconds => float_to_timecode seconds fps) =
      some (renderTC hh mm ss ff) := by
  rw [timecode_to_float_renderTC hhh (by omega) (by omega) hffd fps]
  simp only [Option.map_some']
  rw [float_to_timecode_eval hmm hss hfps hff]

theorem timecode_roundtrip_witness :
    (1 : Nat) < 100 ∧ (2 : Nat) < 60 ∧ (3 : Nat) < 60 ∧ (4 : Nat) < 100 ∧
    (0 : ℚ) < 30 ∧ ((4 : Nat) : ℚ) < 30 ∧
    (timecode_to_float (renderTC 1 2 3 4) 30).map
        (fun seconds => float_to_timecode seconds 30) =
      some (renderTC 1 2 3 4) :=
  ⟨by decide, by decide, by decide, by decide, by decide, by decide,
    timecode_roundtrip 1 2 3 4 30 (by decide) (by decide) (by decide)
      (by decide) (by decide) (by decide)⟩
